import Mathlib

/-!
Verification of the trading ledger engine of the stock-price-prediction
repository.  The Python sources (src/backend/src/business/broker.py and
src/backend/src/storage/sql_wrapper.py) are shallowly embedded below:
prices and money amounts are modelled as exact rationals, share counts as
integers, the SQLite tables as lists of records, and every method that can
raise ValueError returns an Except value (an exception rolls back the
enclosing database transaction, so a failed call leaves the state
unchanged).
-/

/-- Python's built-in round: round half to even ("banker's rounding"),
returning an integer.  Used by Broker.round_to_tick_size. -/
def pyRound (q : ℚ) : ℤ :=
  if q - (⌊q⌋ : ℚ) < 1/2 then ⌊q⌋
  else if 1/2 < q - (⌊q⌋ : ℚ) then ⌊q⌋ + 1
  else if ⌊q⌋ % 2 = 0 then ⌊q⌋ else ⌊q⌋ + 1

/-- Broker.tick_size (broker.py line 219). -/
def tick_size : ℚ := 1/10

/-- Broker.round_to_tick_size: round(round(number / tick_size) * tick_size, 1).
The outer call is Python round(x, 1), modelled as pyRound (x * 10) / 10. -/
def round_to_tick_size (number : ℚ) : ℚ :=
  (pyRound ((pyRound (number / tick_size) : ℚ) * tick_size * 10) : ℚ) / 10

/-- Broker.number_of_stocks_allowed. -/
def number_of_stocks_allowed : ℤ := 10

/-- Broker.min_prediction_difference. -/
def min_prediction_difference : ℚ := 1/10

/-- Broker.buy_threshold_increase (0.02). -/
def buy_threshold_increase : ℚ := 1/50

/-- Broker.sell_threshold_decrease (0.02). -/
def sell_threshold_decrease : ℚ := 1/50

/-- Broker.calculate_thresholds.  Returns none for the (None, None) result. -/
def calculate_thresholds (predicted_low predicted_high : ℚ) : Option (ℚ × ℚ) :=
  if predicted_high ≤ predicted_low then none
  else if predicted_low < 0 ∨ predicted_high < 0 then none
  else if predicted_low * (1 + min_prediction_difference) < predicted_high then
    some (round_to_tick_size (predicted_low * (1 + buy_threshold_increase)),
          round_to_tick_size (predicted_high * (1 - sell_threshold_decrease)))
  else none

/-- Broker.calculate_fee: max(29, 0.0015 * price_per_share * number_of_shares). -/
def calculate_fee (price_per_share : ℚ) (number_of_shares : ℤ) : ℚ :=
  max 29 ((3/2000) * price_per_share * (number_of_shares : ℚ))

/-- The while-loop of Broker.calculate_number_of_shares: starting from a
candidate share count, decrement while the fee-inclusive cost exceeds the
allowed value, stopping at zero. -/
def sizerLoop (buy_threshold allowed : ℚ) : ℕ → ℤ
  | 0 => 0
  | m + 1 =>
    if buy_threshold * (((m : ℤ) + 1 : ℤ) : ℚ) + calculate_fee buy_threshold ((m : ℤ) + 1) ≤ allowed
    then (m : ℤ) + 1
    else sizerLoop buy_threshold allowed m

/-- The allowed value per stock: cash_available / (number_of_stocks_allowed -
number_of_stocks_in_portfolio), with the ZeroDivisionError handler giving 0. -/
def allowed_value_per_stock (cash_available : ℚ) (number_of_stocks_in_portfolio : ℤ) : ℚ :=
  if number_of_stocks_allowed - number_of_stocks_in_portfolio = 0 then 0
  else cash_available / ((number_of_stocks_allowed - number_of_stocks_in_portfolio : ℤ) : ℚ)

/-- Broker.calculate_number_of_shares, parameterised by the two database
reads it performs (available cash and the stock count of the portfolio). -/
def calculate_number_of_shares (cash_available : ℚ) (number_of_stocks_in_portfolio : ℤ)
    (buy_threshold : ℚ) : ℤ :=
  let allowed := allowed_value_per_stock cash_available number_of_stocks_in_portfolio
  let max_shares : ℤ := ⌊allowed / buy_threshold⌋
  if 0 < max_shares then sizerLoop buy_threshold allowed max_shares.toNat else max_shares

/-! ## The ledger store (sql_wrapper.py) -/

/-- Order side, orders.order_type column. -/
inductive OrderType
  | BUY
  | SELL
deriving DecidableEq

/-- Order lifecycle status, orders.status column. -/
inductive OrderStatus
  | PENDING
  | EXECUTED
  | CANCELED
deriving DecidableEq

/-- transactions.transaction_type column. -/
inductive TransactionType
  | DEPOSIT
  | WITHDRAW
  | BUY
  | SELL
  | DIVIDEND
deriving DecidableEq

/-- A row of the orders table (audit timestamps omitted). -/
structure Order where
  id : ℕ
  order_type : OrderType
  stock_symbol : String
  price_per_share : ℚ
  number_of_shares : ℤ
  fee : ℚ
  amount : ℚ
  status : OrderStatus
deriving DecidableEq

/-- A row of the transactions table (timestamp omitted). -/
structure Transaction where
  transaction_type : TransactionType
  stock_symbol : Option String
  price_per_share : Option ℚ
  number_of_shares : Option ℤ
  fee : ℚ
  amount : ℚ
deriving DecidableEq

/-- The CASH row of the portfolio table. -/
structure CashPosition where
  total_value : ℚ
  available : ℚ
deriving DecidableEq

/-- A STOCK row of the portfolio table. -/
structure StockPosition where
  stock_symbol : String
  number_of_shares : ℤ
  price_per_share : ℚ
  total_value : ℚ
deriving DecidableEq

/-- The persisted state owned by SQLWrapper: the portfolio (one CASH row plus
the STOCK rows), the orders table, its AUTOINCREMENT counter, and the
append-only transactions table. -/
structure LedgerState where
  cash : CashPosition
  stocks : List StockPosition
  orders : List Order
  nextOrderId : ℕ
  transactions : List Transaction
deriving DecidableEq

/-- Order.get_by_id. -/
def findOrder (orders : List Order) (order_id : ℕ) : Option Order :=
  orders.find? (fun o => o.id == order_id)

/-- Order.save on an existing row: update the row with the matching id. -/
def updateOrder (orders : List Order) (o : Order) : List Order :=
  orders.map (fun x => if x.id == o.id then o else x)

/-- Portfolio.get_by_key for a STOCK row. -/
def findStock (stocks : List StockPosition) (sym : String) : Option StockPosition :=
  stocks.find? (fun st => st.stock_symbol == sym)

/-- Portfolio.save on an existing STOCK row. -/
def replaceStock (stocks : List StockPosition) (st : StockPosition) : List StockPosition :=
  stocks.map (fun x => if x.stock_symbol == st.stock_symbol then st else x)

/-- Portfolio.delete for a STOCK row. -/
def removeStock (stocks : List StockPosition) (sym : String) : List StockPosition :=
  stocks.filter (fun x => !(x.stock_symbol == sym))

/-- The INSERT ... ON CONFLICT DO UPDATE statement of _execute_buy_order:
insert a STOCK row, or add shares with weighted-average price and add the
inserted total_value. -/
def upsertStock (stocks : List StockPosition) (sym : String) (n : ℤ) (p : ℚ) (tv : ℚ) :
    List StockPosition :=
  match findStock stocks sym with
  | none => stocks ++ [⟨sym, n, p, tv⟩]
  | some old =>
    replaceStock stocks
      ⟨sym, old.number_of_shares + n,
        (old.price_per_share * (old.number_of_shares : ℚ) + p * (n : ℚ)) /
          ((old.number_of_shares : ℚ) + (n : ℚ)),
        old.total_value + tv⟩

/-- SQLWrapper.deposit. -/
def deposit (s : LedgerState) (amount : ℚ) : Except String LedgerState :=
  if amount ≤ 0 then .error "Deposit amount must be positive"
  else
    .ok { s with
      cash := { s.cash with total_value := s.cash.total_value + amount,
                            available := s.cash.available + amount },
      transactions := s.transactions ++ [⟨.DEPOSIT, none, none, none, 0, amount⟩] }

/-- SQLWrapper.withdraw. -/
def withdraw (s : LedgerState) (amount : ℚ) : Except String LedgerState :=
  if amount ≤ 0 then .error "Withdrawal amount must be positive"
  else if s.cash.total_value < amount ∨ s.cash.available < amount then
    .error "Insufficient cash balance to withdraw"
  else
    .ok { s with
      cash := { s.cash with total_value := s.cash.total_value - amount,
                            available := s.cash.available - amount },
      transactions := s.transactions ++ [⟨.WITHDRAW, none, none, none, 0, amount⟩] }

/-- SQLWrapper.create_buy_order. -/
def create_buy_order (s : LedgerState) (stock_symbol : String) (price_per_share : ℚ)
    (number_of_shares : ℤ) (fee : ℚ) : Except String LedgerState :=
  let total_cost := price_per_share * (number_of_shares : ℚ) + fee
  if s.cash.available < total_cost then
    .error "Insufficient available cash to create buy order."
  else
    .ok { s with
      cash := { s.cash with available := s.cash.available - total_cost },
      orders := s.orders ++
        [⟨s.nextOrderId, .BUY, stock_symbol, price_per_share, number_of_shares, fee,
          total_cost, .PENDING⟩],
      nextOrderId := s.nextOrderId + 1 }

/-- SQLWrapper.create_sell_order. -/
def create_sell_order (s : LedgerState) (stock_symbol : String) (price_per_share : ℚ)
    (number_of_shares : ℤ) (fee : ℚ) : Except String LedgerState :=
  let total_proceeds := price_per_share * (number_of_shares : ℚ) - fee
  match findStock s.stocks stock_symbol with
  | none => .error "Insufficient shares to create sell order."
  | some stock =>
    if stock.number_of_shares < number_of_shares then
      .error "Insufficient shares to create sell order."
    else
      .ok { s with
        orders := s.orders ++
          [⟨s.nextOrderId, .SELL, stock_symbol, price_per_share, number_of_shares, fee,
            total_proceeds, .PENDING⟩],
        nextOrderId := s.nextOrderId + 1 }

/-- SQLWrapper._execute_buy_order, together with the cash-available update in
execute_order that precedes it: execute_order first adds the recomputed
order.amount back to available cash, then _execute_buy_order checks the total
balance, upserts the stock row and deducts order.amount from both cash
columns.  The argument o already carries the overridden price/fee and the
recomputed amount. -/
def execute_buy_part (s : LedgerState) (o : Order) : Except String LedgerState :=
  let cash1 : CashPosition := { s.cash with available := s.cash.available + o.amount }
  if cash1.total_value < o.amount then
    .error "Insufficient total cash balance to execute buy order."
  else
    let stocks1 := upsertStock s.stocks o.stock_symbol o.number_of_shares o.price_per_share
      (o.amount - o.fee)
    let cash2 : CashPosition := { cash1 with total_value := cash1.total_value - o.amount,
                                             available := cash1.available - o.amount }
    .ok { s with
      cash := cash2,
      stocks := stocks1,
      orders := updateOrder s.orders { o with status := .EXECUTED },
      transactions := s.transactions ++
        [⟨.BUY, some o.stock_symbol, some o.price_per_share, some o.number_of_shares,
          o.fee, o.amount⟩] }

/-- SQLWrapper._execute_sell_order.  The argument o already carries the
overridden price/fee and the recomputed amount. -/
def execute_sell_part (s : LedgerState) (o : Order) : Except String LedgerState :=
  match findStock s.stocks o.stock_symbol with
  | none => .error "Insufficient shares to execute sell order"
  | some stock_port =>
    if stock_port.number_of_shares < o.number_of_shares then
      .error "Insufficient shares to execute sell order"
    else
      let stock1 : StockPosition := { stock_port with
        number_of_shares := stock_port.number_of_shares - o.number_of_shares,
        total_value :=
          stock_port.total_value - (o.number_of_shares : ℚ) * stock_port.price_per_share }
      let stocks1 := if stock1.number_of_shares ≤ 0 then removeStock s.stocks o.stock_symbol
                     else replaceStock s.stocks stock1
      .ok { s with
        cash := { s.cash with total_value := s.cash.total_value + o.amount,
                              available := s.cash.available + o.amount },
        stocks := stocks1,
        orders := updateOrder s.orders { o with status := .EXECUTED },
        transactions := s.transactions ++
          [⟨.SELL, some o.stock_symbol, some o.price_per_share, some o.number_of_shares,
            o.fee, o.amount⟩] }

/-- SQLWrapper.execute_order.  A raised ValueError rolls the transaction
back, so an error leaves the ledger unchanged. -/
def execute_order (s : LedgerState) (order_id : ℕ)
    (price_override fee_override : Option ℚ) : Except String LedgerState :=
  match findOrder s.orders order_id with
  | none => .error "Order not found."
  | some o =>
    if o.status ≠ .PENDING then .error "Order is not in PENDING state."
    else
      let o1 := { o with price_per_share := price_override.getD o.price_per_share,
                         fee := fee_override.getD o.fee }
      match o1.order_type with
      | .BUY =>
        execute_buy_part s
          { o1 with amount := o1.price_per_share * (o1.number_of_shares : ℚ) + o1.fee }
      | .SELL =>
        execute_sell_part s
          { o1 with amount := o1.price_per_share * (o1.number_of_shares : ℚ) - o1.fee }

/-- SQLWrapper.cancel_order. -/
def cancel_order (s : LedgerState) (order_id : ℕ) : Except String LedgerState :=
  match findOrder s.orders order_id with
  | none => .error "Order not found."
  | some o =>
    if o.status ≠ .PENDING then .error "Order is not in PENDING state; cannot cancel."
    else
      let cash1 := if o.order_type = .BUY then
          { s.cash with available := s.cash.available + o.amount }
        else s.cash
      .ok { s with cash := cash1, orders := updateOrder s.orders { o with status := .CANCELED } }

/-- SQLWrapper.receive_dividend.  Python: not stock_port.number_of_shares is
true only for a missing row or a share count of exactly zero. -/
def receive_dividend (s : LedgerState) (stock_symbol : String) (dividend_per_share : ℚ) :
    Except String LedgerState :=
  if dividend_per_share ≤ 0 then .error "Dividend amount must be positive."
  else
    match findStock s.stocks stock_symbol with
    | none => .error "No shares found in the portfolio."
    | some stock_port =>
      if stock_port.number_of_shares = 0 then .error "No shares found in the portfolio."
      else
        let total_dividend := (stock_port.number_of_shares : ℚ) * dividend_per_share
        .ok { s with
          cash := { s.cash with total_value := s.cash.total_value + total_dividend,
                                available := s.cash.available + total_dividend },
          transactions := s.transactions ++
            [⟨.DIVIDEND, some stock_symbol, some dividend_per_share,
              some stock_port.number_of_shares, 0, total_dividend⟩] }

/-- One call into the ledger store. -/
inductive LedgerOp
  | deposit (amount : ℚ)
  | withdraw (amount : ℚ)
  | createBuyOrder (stock_symbol : String) (price_per_share : ℚ) (number_of_shares : ℤ)
      (fee : ℚ)
  | createSellOrder (stock_symbol : String) (price_per_share : ℚ) (number_of_shares : ℤ)
      (fee : ℚ)
  | executeOrder (order_id : ℕ) (price_override fee_override : Option ℚ)
  | cancelOrder (order_id : ℕ)
  | receiveDividend (stock_symbol : String) (dividend_per_share : ℚ)
deriving DecidableEq

/-- Dispatch one ledger call. -/
def stepOp (s : LedgerState) : LedgerOp → Except String LedgerState
  | .deposit a => deposit s a
  | .withdraw a => withdraw s a
  | .createBuyOrder sym p n f => create_buy_order s sym p n f
  | .createSellOrder sym p n f => create_sell_order s sym p n f
  | .executeOrder oid p f => execute_order s oid p f
  | .cancelOrder oid => cancel_order s oid
  | .receiveDividend sym d => receive_dividend s sym d

/-- A call that raises ValueError leaves the persisted state unchanged (the
sqlite connection context manager rolls the transaction back). -/
def applyOp (s : LedgerState) (op : LedgerOp) : LedgerState :=
  ((stepOp s op).toOption).getD s

/-- Run a sequence of ledger calls. -/
def runOps (s : LedgerState) (ops : List LedgerOp) : LedgerState :=
  ops.foldl applyOp s

/-- The state created by create_tables: a single CASH row with total 0 and
available 0, no stock rows, no orders, no transactions. -/
def initialState : LedgerState :=
  { cash := { total_value := 0, available := 0 }, stocks := [], orders := [],
    nextOrderId := 1, transactions := [] }

/-! ## Properties of the tick rounding -/

/-- pyRound stays within half a unit of its argument. -/
theorem pyRound_bounds (q : ℚ) : q - 1/2 ≤ (pyRound q : ℚ) ∧ (pyRound q : ℚ) ≤ q + 1/2 := by
  have h1 : (⌊q⌋ : ℚ) ≤ q := Int.floor_le q
  have h2 : q < (⌊q⌋ : ℚ) + 1 := Int.lt_floor_add_one q
  unfold pyRound
  by_cases hlt : q - (⌊q⌋ : ℚ) < 1/2
  · rw [if_pos hlt]
    constructor <;> linarith
  · rw [if_neg hlt]
    by_cases hgt : (1/2 : ℚ) < q - (⌊q⌋ : ℚ)
    · rw [if_pos hgt]
      push_cast
      constructor <;> linarith
    · rw [if_neg hgt]
      by_cases hev : ⌊q⌋ % 2 = 0
      · rw [if_pos hev]
        constructor <;> linarith
      · rw [if_neg hev]
        push_cast
        constructor <;> linarith

/-- pyRound is monotone. -/
theorem pyRound_mono {a b : ℚ} (h : a ≤ b) : pyRound a ≤ pyRound b := by
  rcases eq_or_lt_of_le h with rfl | hlt
  · exact le_refl _
  · by_contra hcon
    push_neg at hcon
    have hstep : (pyRound b : ℚ) + 1 ≤ (pyRound a : ℚ) := by exact_mod_cast hcon
    have ha := (pyRound_bounds a).2
    have hb := (pyRound_bounds b).1
    linarith

/-- pyRound is the identity on integers. -/
theorem pyRound_intCast (k : ℤ) : pyRound (k : ℚ) = k := by
  unfold pyRound
  rw [Int.floor_intCast, sub_self, if_pos (by norm_num)]

/-- round_to_tick_size collapses to a single half-even rounding: the outer
Python round(x, 1) is the identity on an exact multiple of the tick. -/
theorem round_to_tick_size_eq (x : ℚ) :
    round_to_tick_size x = (pyRound (x / tick_size) : ℚ) * tick_size := by
  unfold round_to_tick_size
  have h : (pyRound (x / tick_size) : ℚ) * tick_size * 10 = ((pyRound (x / tick_size) : ℤ) : ℚ) := by
    unfold tick_size
    ring
  rw [h, pyRound_intCast]
  unfold tick_size
  ring

/-- The result of round_to_tick_size is an exact multiple of the tick. -/
theorem round_to_tick_size_tick_multiple (x : ℚ) :
    ∃ k : ℤ, round_to_tick_size x = (k : ℚ) * tick_size :=
  ⟨pyRound (x / tick_size), round_to_tick_size_eq x⟩

/-- round_to_tick_size is monotone. -/
theorem round_to_tick_size_mono {a b : ℚ} (h : a ≤ b) :
    round_to_tick_size a ≤ round_to_tick_size b := by
  rw [round_to_tick_size_eq, round_to_tick_size_eq]
  have hdiv : a / tick_size ≤ b / tick_size := by
    unfold tick_size
    linarith
  have hr := pyRound_mono hdiv
  have hr2 : (pyRound (a / tick_size) : ℚ) ≤ (pyRound (b / tick_size) : ℚ) := by
    exact_mod_cast hr
  exact mul_le_mul_of_nonneg_right hr2 (by norm_num [tick_size])

/-! ## Properties of the position sizer -/

/-- The sizer loop never goes below zero. -/
theorem sizerLoop_nonneg (bt allowed : ℚ) (f : ℕ) : 0 ≤ sizerLoop bt allowed f := by
  induction f with
  | zero => exact le_refl _
  | succ m ih =>
    unfold sizerLoop
    split
    · omega
    · exact ih

/-- The sizer loop returns zero or a positive count whose fee-inclusive cost
fits in the allowed value. -/
theorem sizerLoop_spec (bt allowed : ℚ) (f : ℕ) :
    sizerLoop bt allowed f = 0 ∨
      (0 < sizerLoop bt allowed f ∧
        bt * ((sizerLoop bt allowed f : ℤ) : ℚ) + calculate_fee bt (sizerLoop bt allowed f) ≤
          allowed) := by
  induction f with
  | zero => exact Or.inl rfl
  | succ m ih =>
    unfold sizerLoop
    split
    · rename_i hcond
      right
      refine ⟨by omega, ?_⟩
      exact hcond
    · exact ih

/-- Claim C6 (counterexample): with predicted_low = 0 and predicted_high = 1/20
(both admissible under the claim, including a spread of at least MIN_SPREAD),
the engine does return thresholds, both tick multiples, but they collapse to
the same tick: buy_threshold = sell_threshold = 0, so buy_threshold <
sell_threshold fails. -/
theorem thresholds_tick_collapse :
    (0 : ℚ) ≤ 0 ∧ (0 : ℚ) < 1/20 ∧ (0 : ℚ) * (1 + min_prediction_difference) ≤ 1/20 ∧
    calculate_thresholds 0 (1/20) = some (0, 0) ∧ ¬ ((0 : ℚ) < 0) := by
  norm_num [calculate_thresholds, round_to_tick_size, pyRound, tick_size,
    min_prediction_difference, buy_threshold_increase, sell_threshold_decrease]

/-- Claim C6 (amended): for 0 ≤ predicted_low and a strictly sufficient spread
(predicted_low * (1 + MIN_SPREAD) < predicted_high, which is the acceptance
test the code actually runs), calculate_thresholds returns a pair of
thresholds, both exact multiples of TICK_SIZE, with buy_threshold ≤
sell_threshold; equality is possible (the strict inequality of the original
claim fails, see the counterexample). -/
theorem calculate_thresholds_amended (predicted_low predicted_high : ℚ)
    (h0 : 0 ≤ predicted_low)
    (hsp : predicted_low * (1 + min_prediction_difference) < predicted_high) :
    ∃ bt st, calculate_thresholds predicted_low predicted_high = some (bt, st) ∧
      bt ≤ st ∧ (∃ i : ℤ, bt = (i : ℚ) * tick_size) ∧ (∃ j : ℤ, st = (j : ℚ) * tick_size) := by
  have hmd : min_prediction_difference = 1/10 := rfl
  rw [hmd] at hsp
  have hlt : predicted_low < predicted_high := by nlinarith
  have hh : 0 ≤ predicted_high := le_trans h0 (le_of_lt hlt)
  have heq : calculate_thresholds predicted_low predicted_high =
      some (round_to_tick_size (predicted_low * (1 + buy_threshold_increase)),
            round_to_tick_size (predicted_high * (1 - sell_threshold_decrease))) := by
    unfold calculate_thresholds
    rw [if_neg (not_le.mpr hlt)]
    rw [if_neg (by push_neg; exact ⟨h0, hh⟩)]
    rw [hmd, if_pos hsp]
  refine ⟨_, _, heq, ?_, round_to_tick_size_tick_multiple _,
    round_to_tick_size_tick_multiple _⟩
  apply round_to_tick_size_mono
  unfold buy_threshold_increase sell_threshold_decrease
  nlinarith

/-- Witness for the amended claim C6 at predicted_low = 100, predicted_high
= 120 (thresholds 102 and 117.6). -/
theorem calculate_thresholds_amended_witness :
    ∃ bt st, calculate_thresholds 100 120 = some (bt, st) ∧
      bt ≤ st ∧ (∃ i : ℤ, bt = (i : ℚ) * tick_size) ∧ (∃ j : ℤ, st = (j : ℚ) * tick_size) :=
  calculate_thresholds_amended 100 120 (by norm_num)
    (by norm_num [min_prediction_difference])

/-- Claim C7 (counterexample): with available cash 100, eleven stocks already
in the portfolio (one more than the cap) and buy threshold 10 — all inside
the domain the claim quantifies over — the sizer returns -10, a negative
share count, because the per-slot budget 100 / (10 - 11) is negative and the
floor of a negative number skips the correction loop. -/
theorem sizer_negative_counterexample :
    (0 : ℚ) < 10 ∧ (0 : ℚ) ≤ 100 ∧
    calculate_number_of_shares 100 11 10 = -10 ∧
    ¬ (0 ≤ calculate_number_of_shares 100 11 10) := by
  norm_num [calculate_number_of_shares, allowed_value_per_stock, number_of_stocks_allowed]

/-- Claim C7 (amended): when the held-position count does not exceed
number_of_stocks_allowed, the sizer result n satisfies n ≥ 0; if n > 0 its
fee-inclusive cost fits in the per-remaining-slot budget; n = 0 when the
portfolio is full; and n = 0 whenever no whole share fits the budget. -/
theorem calculate_number_of_shares_amended (cash_available : ℚ) (k : ℤ) (bt : ℚ)
    (hbt : 0 < bt) (hcash : 0 ≤ cash_available) (hk : k ≤ number_of_stocks_allowed) :
    0 ≤ calculate_number_of_shares cash_available k bt ∧
    (0 < calculate_number_of_shares cash_available k bt →
      bt * ((calculate_number_of_shares cash_available k bt : ℤ) : ℚ) +
          calculate_fee bt (calculate_number_of_shares cash_available k bt) ≤
        allowed_value_per_stock cash_available k) ∧
    (k = number_of_stocks_allowed → calculate_number_of_shares cash_available k bt = 0) ∧
    ((∀ m : ℤ, 1 ≤ m →
        allowed_value_per_stock cash_available k <
          bt * (m : ℚ) + calculate_fee bt m) →
      calculate_number_of_shares cash_available k bt = 0) := by
  have hA : 0 ≤ allowed_value_per_stock cash_available k := by
    unfold allowed_value_per_stock
    split
    · exact le_refl 0
    · rename_i hne
      apply div_nonneg hcash
      have : 0 < number_of_stocks_allowed - k := by
        unfold number_of_stocks_allowed at hk hne ⊢
        omega
      exact_mod_cast le_of_lt this
  have hfloor : 0 ≤ ⌊allowed_value_per_stock cash_available k / bt⌋ := by
    apply Int.floor_nonneg.mpr
    exact div_nonneg hA (le_of_lt hbt)
  have hmain : 0 ≤ calculate_number_of_shares cash_available k bt ∧
      (0 < calculate_number_of_shares cash_available k bt →
        bt * ((calculate_number_of_shares cash_available k bt : ℤ) : ℚ) +
            calculate_fee bt (calculate_number_of_shares cash_available k bt) ≤
          allowed_value_per_stock cash_available k) := by
    simp only [calculate_number_of_shares]
    split
    · constructor
      · exact sizerLoop_nonneg _ _ _
      · intro hpos
        rcases sizerLoop_spec bt (allowed_value_per_stock cash_available k)
            (⌊allowed_value_per_stock cash_available k / bt⌋).toNat with h0 | ⟨_, hle⟩
        · omega
        · exact hle
    · rename_i hnotpos
      constructor
      · omega
      · intro hpos
        omega
  refine ⟨hmain.1, hmain.2, ?_, ?_⟩
  · intro hfull
    have hAz : allowed_value_per_stock cash_available k = 0 := by
      unfold allowed_value_per_stock
      rw [if_pos (by omega)]
    simp only [calculate_number_of_shares, hAz]
    norm_num
  · intro hno
    by_contra hne
    have hpos : 0 < calculate_number_of_shares cash_available k bt := by
      rcases lt_or_eq_of_le hmain.1 with h | h
      · exact h
      · exact absurd h.symm hne
    have hcost := hmain.2 hpos
    have := hno (calculate_number_of_shares cash_available k bt) (by omega)
    linarith

/-- Witness for the amended claim C7: cash 100000, empty portfolio, buy
threshold 200 — the sizer yields 49 shares and the stated properties hold. -/
theorem calculate_number_of_shares_amended_witness :
    0 ≤ calculate_number_of_shares 100000 0 200 ∧
    (0 < calculate_number_of_shares 100000 0 200 →
      (200 : ℚ) * ((calculate_number_of_shares 100000 0 200 : ℤ) : ℚ) +
          calculate_fee 200 (calculate_number_of_shares 100000 0 200) ≤
        allowed_value_per_stock 100000 0) ∧
    ((0 : ℤ) = number_of_stocks_allowed → calculate_number_of_shares 100000 0 200 = 0) ∧
    ((∀ m : ℤ, 1 ≤ m →
        allowed_value_per_stock 100000 0 < (200 : ℚ) * (m : ℚ) + calculate_fee 200 m) →
      calculate_number_of_shares 100000 0 200 = 0) :=
  calculate_number_of_shares_amended 100000 0 200 (by norm_num) (by norm_num) (by decide)

/-! ## Settlement of pending orders (broker.py, conclude_pending_orders_for_traded_stocks) -/

/-- A daily OHLC price bar. -/
structure PriceBar where
  openPrice : ℚ
  highPrice : ℚ
  lowPrice : ℚ
deriving DecidableEq

/-- What the settlement pass decides to do with one pending order. -/
inductive SettleAction
  | cancel
  | executeAtOpen (price fee : ℚ)
  | executeAtOrderPrice
deriving DecidableEq

/-- The decision chain of Broker.conclude_pending_orders_for_traded_stocks for
one pending order, given the day's bar (none when the stock did not trade
that day): BUY executes at the open when open ≤ order price (fee recomputed
at the open), else at the order price when low ≤ order price, else cancels;
SELL executes at the open when open ≥ order price (fee recomputed), else at
the order price when high ≥ order price, else cancels. -/
def concludeOrderAction (o : Order) (bar : Option PriceBar) : SettleAction :=
  match bar with
  | none => .cancel
  | some b =>
    if o.order_type = .BUY ∧ b.openPrice ≤ o.price_per_share then
      .executeAtOpen b.openPrice (calculate_fee b.openPrice o.number_of_shares)
    else if o.order_type = .BUY ∧ b.lowPrice ≤ o.price_per_share then
      .executeAtOrderPrice
    else if o.order_type = .SELL ∧ b.openPrice ≥ o.price_per_share then
      .executeAtOpen b.openPrice (calculate_fee b.openPrice o.number_of_shares)
    else if o.order_type = .SELL ∧ b.highPrice ≥ o.price_per_share then
      .executeAtOrderPrice
    else .cancel

/-- Claim C4: settlement of a pending order against a day's bar follows the
specified rules — no bar cancels; a BUY executes at the open with the fee
recomputed at the open price when Open ≤ order price, otherwise at the
original order price when Low ≤ order price, otherwise cancels; a SELL
executes at the open with recomputed fee when Open ≥ order price, otherwise
at the original price when High ≥ order price, otherwise cancels. -/
theorem settlement_rules (o : Order) (bar : Option PriceBar) :
    (bar = none → concludeOrderAction o bar = .cancel) ∧
    (∀ b, bar = some b → o.order_type = .BUY →
      (b.openPrice ≤ o.price_per_share →
        concludeOrderAction o bar =
          .executeAtOpen b.openPrice (calculate_fee b.openPrice o.number_of_shares)) ∧
      (¬ b.openPrice ≤ o.price_per_share → b.lowPrice ≤ o.price_per_share →
        concludeOrderAction o bar = .executeAtOrderPrice) ∧
      (¬ b.openPrice ≤ o.price_per_share → ¬ b.lowPrice ≤ o.price_per_share →
        concludeOrderAction o bar = .cancel)) ∧
    (∀ b, bar = some b → o.order_type = .SELL →
      (b.openPrice ≥ o.price_per_share →
        concludeOrderAction o bar =
          .executeAtOpen b.openPrice (calculate_fee b.openPrice o.number_of_shares)) ∧
      (¬ b.openPrice ≥ o.price_per_share → b.highPrice ≥ o.price_per_share →
        concludeOrderAction o bar = .executeAtOrderPrice) ∧
      (¬ b.openPrice ≥ o.price_per_share → ¬ b.highPrice ≥ o.price_per_share →
        concludeOrderAction o bar = .cancel)) := by
  refine ⟨?_, ?_, ?_⟩
  · rintro rfl
    rfl
  · rintro b rfl hbuy
    have hnots : ¬ o.order_type = OrderType.SELL := by
      rw [hbuy]
      intro h
      cases h
    refine ⟨?_, ?_, ?_⟩
    · intro hopen
      simp [concludeOrderAction, hbuy, hopen]
    · intro hopen hlow
      simp [concludeOrderAction, hbuy, hopen, hlow]
    · intro hopen hlow
      simp [concludeOrderAction, hbuy, hopen, hlow, hnots]
  · rintro b rfl hsell
    have hnotb : ¬ o.order_type = OrderType.BUY := by
      rw [hsell]
      intro h
      cases h
    refine ⟨?_, ?_, ?_⟩
    · intro hopen
      simp [concludeOrderAction, hsell, hnotb, hopen]
    · intro hopen hhigh
      simp [concludeOrderAction, hsell, hnotb, hopen, hhigh]
    · intro hopen hhigh
      simp [concludeOrderAction, hsell, hnotb, hopen, hhigh]

/-- Witness for claim C4: a BUY order with limit 102 against a bar opening at
100 executes at the open with the fee recomputed at 100. -/
theorem settlement_rules_witness :
    concludeOrderAction ⟨1, .BUY, "AAPL", 102, 97, 29, 9923, .PENDING⟩
        (some ⟨100, 104, 99⟩) =
      .executeAtOpen 100 (calculate_fee 100 97) := by
  have h := (settlement_rules ⟨1, .BUY, "AAPL", 102, 97, 29, 9923, .PENDING⟩
    (some ⟨100, 104, 99⟩)).2.1 ⟨100, 104, 99⟩ rfl rfl
  exact h.1 (by norm_num)

/-! ## Keyword-argument binding between Broker and SQLWrapper (claim C10) -/

/-- Parameter names of SQLWrapper.execute_order (sql_wrapper.py line 195). -/
def execute_order_params : List String := ["order_id", "_price_per_share", "_fee"]

/-- Parameter names of SQLWrapper.cancel_order (sql_wrapper.py line 345). -/
def cancel_order_params : List String := ["order_id"]

/-- Parameter names of SQLWrapper.create_buy_order (sql_wrapper.py line 114). -/
def create_buy_order_params : List String :=
  ["stock_symbol", "price_per_share", "number_of_shares", "fee"]

/-- Parameter names of SQLWrapper.create_sell_order (sql_wrapper.py line 157). -/
def create_sell_order_params : List String :=
  ["stock_symbol", "price_per_share", "number_of_shares", "fee"]

/-- Keyword arguments of the execute-at-open calls in
Broker.conclude_pending_orders_for_traded_stocks (broker.py lines 257 and 275). -/
def conclude_execute_open_kwargs : List String :=
  ["order_id", "_price_per_share", "_fee", "_date"]

/-- Keyword arguments of the execute-at-order-price calls (broker.py lines 270
and 288; order.id is passed positionally). -/
def conclude_execute_original_kwargs : List String := ["_date"]

/-- Keyword arguments of the cancel calls (broker.py lines 245, 250 and 291;
order.id is passed positionally). -/
def conclude_cancel_kwargs : List String := ["date"]

/-- Keyword arguments of the create_sell_order call in Broker.create_orders
(broker.py line 304). -/
def create_orders_sell_kwargs : List String :=
  ["stock_symbol", "price_per_share", "number_of_shares", "fee", "date"]

/-- Keyword arguments of the create_buy_order call in Broker.create_orders
(broker.py line 316). -/
def create_orders_buy_kwargs : List String :=
  ["stock_symbol", "price_per_share", "number_of_shares", "fee", "date"]

/-- Python call binding: a call binds only if every keyword argument names a
declared parameter; otherwise the interpreter raises TypeError before the
function body runs, so no state is touched. -/
def kwargsAccepted (params kwargs : List String) : Bool :=
  kwargs.all (fun k => params.contains k)

/-- Claim C10: every ledger call made by the Broker's daily pass — execute at
open, execute at order price, cancel, create buy, create sell — passes a
keyword argument that the corresponding SQLWrapper method does not declare
(date or _date), so each such call raises TypeError before touching any
state and no order can be executed, canceled or created through the Broker. -/
theorem broker_kwarg_binding_fails :
    kwargsAccepted execute_order_params conclude_execute_open_kwargs = false ∧
    kwargsAccepted execute_order_params conclude_execute_original_kwargs = false ∧
    kwargsAccepted cancel_order_params conclude_cancel_kwargs = false ∧
    kwargsAccepted create_buy_order_params create_orders_buy_kwargs = false ∧
    kwargsAccepted create_sell_order_params create_orders_sell_kwargs = false := by
  decide

/-! ## Order creation, cancellation and terminal statuses -/

/-- Claim C3: create_buy_order with price p, quantity n and fee f checks the
CASH row's available balance against p * n + f; on insufficient funds it
raises ValueError and leaves the whole state unchanged, otherwise it deducts
exactly the total cost from available (total_value untouched), appends one
PENDING BUY order whose amount is the total cost, and changes nothing else. -/
theorem create_buy_order_spec (s : LedgerState) (sym : String) (p : ℚ) (n : ℤ) (f : ℚ) :
    (s.cash.available < p * (n : ℚ) + f →
      (stepOp s (.createBuyOrder sym p n f)).toOption = none ∧
      applyOp s (.createBuyOrder sym p n f) = s) ∧
    (¬ s.cash.available < p * (n : ℚ) + f →
      stepOp s (.createBuyOrder sym p n f) =
        .ok { s with
          cash := { s.cash with available := s.cash.available - (p * (n : ℚ) + f) },
          orders := s.orders ++
            [⟨s.nextOrderId, .BUY, sym, p, n, f, p * (n : ℚ) + f, .PENDING⟩],
          nextOrderId := s.nextOrderId + 1 }) := by
  constructor
  · intro h
    simp [stepOp, create_buy_order, applyOp, Except.toOption, h]
  · intro h
    simp [stepOp, create_buy_order, h]

/-- Witness for claim C3: with available cash 79000 (the spec's insufficient
funds scenario), a BUY of 1000 shares at 2500 with fee 1000 (cost 2501000) is
rejected with no state change; with the same cash a BUY of 100 shares at 200
with fee 15 is recorded PENDING and 20015 is reserved from available. -/
theorem create_buy_order_spec_witness :
    ((stepOp
        { cash := { total_value := 79000, available := 79000 }, stocks := [], orders := [],
          nextOrderId := 1, transactions := [] }
        (.createBuyOrder "MSFT" 2500 1000 1000)).toOption = none ∧
      applyOp
        { cash := { total_value := 79000, available := 79000 }, stocks := [], orders := [],
          nextOrderId := 1, transactions := [] }
        (.createBuyOrder "MSFT" 2500 1000 1000) =
        { cash := { total_value := 79000, available := 79000 }, stocks := [], orders := [],
          nextOrderId := 1, transactions := [] }) ∧
    stepOp
        { cash := { total_value := 79000, available := 79000 }, stocks := [], orders := [],
          nextOrderId := 1, transactions := [] }
        (.createBuyOrder "AAPL" 200 100 15) =
      .ok
        { cash := { total_value := 79000, available := 79000 - (200 * ((100 : ℤ) : ℚ) + 15) },
          stocks := [],
          orders := [⟨1, .BUY, "AAPL", 200, 100, 15, 200 * ((100 : ℤ) : ℚ) + 15, .PENDING⟩],
          nextOrderId := 2, transactions := [] } :=
  ⟨(create_buy_order_spec _ "MSFT" 2500 1000 1000).1 (by norm_num),
   (create_buy_order_spec _ "AAPL" 200 100 15).2 (by norm_num)⟩

/-- Claim C5: executing or cancelling an order that is no longer PENDING
(already EXECUTED or CANCELED) raises ValueError and leaves the whole
persisted state unchanged, so the PENDING → EXECUTED | CANCELED transitions
are one-directional and terminal. -/
theorem terminal_order_rejection (s : LedgerState) (oid : ℕ) (p f : Option ℚ) (o : Order)
    (hfind : findOrder s.orders oid = some o) (hstat : o.status ≠ .PENDING) :
    (stepOp s (.executeOrder oid p f)).toOption = none ∧
    applyOp s (.executeOrder oid p f) = s ∧
    (stepOp s (.cancelOrder oid)).toOption = none ∧
    applyOp s (.cancelOrder oid) = s := by
  refine ⟨?_, ?_, ?_, ?_⟩ <;>
    simp [stepOp, execute_order, cancel_order, applyOp, Except.toOption, hfind, hstat]

/-- Witness for claim C5: a ledger whose only order is already EXECUTED
rejects both execute_order and cancel_order with no state change. -/
theorem terminal_order_rejection_witness :
    (stepOp
        { cash := { total_value := 1000, available := 1000 }, stocks := [],
          orders := [⟨1, .BUY, "AAPL", 200, 100, 15, 20015, .EXECUTED⟩],
          nextOrderId := 2, transactions := [] }
        (.executeOrder 1 none none)).toOption = none ∧
    applyOp
        { cash := { total_value := 1000, available := 1000 }, stocks := [],
          orders := [⟨1, .BUY, "AAPL", 200, 100, 15, 20015, .EXECUTED⟩],
          nextOrderId := 2, transactions := [] }
        (.executeOrder 1 none none) =
      { cash := { total_value := 1000, available := 1000 }, stocks := [],
        orders := [⟨1, .BUY, "AAPL", 200, 100, 15, 20015, .EXECUTED⟩],
        nextOrderId := 2, transactions := [] } ∧
    (stepOp
        { cash := { total_value := 1000, available := 1000 }, stocks := [],
          orders := [⟨1, .BUY, "AAPL", 200, 100, 15, 20015, .EXECUTED⟩],
          nextOrderId := 2, transactions := [] }
        (.cancelOrder 1)).toOption = none ∧
    applyOp
        { cash := { total_value := 1000, available := 1000 }, stocks := [],
          orders := [⟨1, .BUY, "AAPL", 200, 100, 15, 20015, .EXECUTED⟩],
          nextOrderId := 2, transactions := [] }
        (.cancelOrder 1) =
      { cash := { total_value := 1000, available := 1000 }, stocks := [],
        orders := [⟨1, .BUY, "AAPL", 200, 100, 15, 20015, .EXECUTED⟩],
        nextOrderId := 2, transactions := [] } :=
  terminal_order_rejection _ 1 none none ⟨1, .BUY, "AAPL", 200, 100, 15, 20015, .EXECUTED⟩
    rfl (by decide)

/-- Claim C8: cancelling a PENDING BUY order marks it CANCELED, adds exactly
the order's reserved amount back to available cash, and leaves cash
total_value, the stock rows and the transaction history untouched. -/
theorem cancel_pending_buy_spec (s : LedgerState) (oid : ℕ) (o : Order)
    (hfind : findOrder s.orders oid = some o) (hstat : o.status = .PENDING)
    (htype : o.order_type = .BUY) :
    stepOp s (.cancelOrder oid) =
      .ok { s with
        cash := { s.cash with available := s.cash.available + o.amount },
        orders := updateOrder s.orders { o with status := .CANCELED } } ∧
    (applyOp s (.cancelOrder oid)).cash.total_value = s.cash.total_value ∧
    (applyOp s (.cancelOrder oid)).cash.available = s.cash.available + o.amount ∧
    (applyOp s (.cancelOrder oid)).stocks = s.stocks ∧
    (applyOp s (.cancelOrder oid)).transactions = s.transactions ∧
    (applyOp s (.cancelOrder oid)).orders = updateOrder s.orders { o with status := .CANCELED } := by
  have hstep : stepOp s (.cancelOrder oid) =
      .ok { s with
        cash := { s.cash with available := s.cash.available + o.amount },
        orders := updateOrder s.orders { o with status := .CANCELED } } := by
    simp [stepOp, cancel_order, hfind, hstat, htype]
  refine ⟨hstep, ?_, ?_, ?_, ?_, ?_⟩ <;> simp [applyOp, hstep, Except.toOption]

/-- Witness for claim C8: cancelling the PENDING BUY order that reserved
20015 restores available cash from 79985 to 100000 and touches nothing else. -/
theorem cancel_pending_buy_spec_witness :
    stepOp
        { cash := { total_value := 100000, available := 79985 }, stocks := [],
          orders := [⟨1, .BUY, "AAPL", 200, 100, 15, 20015, .PENDING⟩],
          nextOrderId := 2, transactions := [] }
        (.cancelOrder 1) =
      .ok
        { cash := { total_value := 100000, available := (79985 : ℚ) + 20015 }, stocks := [],
          orders := updateOrder [⟨1, .BUY, "AAPL", 200, 100, 15, 20015, .PENDING⟩]
            ⟨1, .BUY, "AAPL", 200, 100, 15, 20015, .CANCELED⟩,
          nextOrderId := 2, transactions := [] } ∧
    (applyOp
        { cash := { total_value := 100000, available := 79985 }, stocks := [],
          orders := [⟨1, .BUY, "AAPL", 200, 100, 15, 20015, .PENDING⟩],
          nextOrderId := 2, transactions := [] }
        (.cancelOrder 1)).cash.total_value = 100000 ∧
    (applyOp
        { cash := { total_value := 100000, available := 79985 }, stocks := [],
          orders := [⟨1, .BUY, "AAPL", 200, 100, 15, 20015, .PENDING⟩],
          nextOrderId := 2, transactions := [] }
        (.cancelOrder 1)).cash.available = (79985 : ℚ) + 20015 := by
  have h := cancel_pending_buy_spec
    { cash := { total_value := 100000, available := 79985 }, stocks := [],
      orders := [⟨1, .BUY, "AAPL", 200, 100, 15, 20015, .PENDING⟩],
      nextOrderId := 2, transactions := [] }
    1 ⟨1, .BUY, "AAPL", 200, 100, 15, 20015, .PENDING⟩ rfl rfl rfl
  exact ⟨h.1, h.2.1, h.2.2.1⟩

/-! ## Conservation of cash against the transaction ledger (claim C1) -/

/-- The sign convention of the conservation law: DEPOSIT, SELL and DIVIDEND
amounts count positive, WITHDRAW and BUY amounts count negative. -/
def signedAmount (t : Transaction) : ℚ :=
  match t.transaction_type with
  | .DEPOSIT => t.amount
  | .SELL => t.amount
  | .DIVIDEND => t.amount
  | .WITHDRAW => -t.amount
  | .BUY => -t.amount

/-- Sum of all recorded transaction amounts, signed by type. -/
def signedTxnSum (ts : List Transaction) : ℚ := (ts.map signedAmount).sum

/-- Appending one transaction adds its signed amount to the sum. -/
theorem signedTxnSum_append (ts : List Transaction) (t : Transaction) :
    signedTxnSum (ts ++ [t]) = signedTxnSum ts + signedAmount t := by
  simp [signedTxnSum]

/-- The conservation invariant. -/
def CashConservation (s : LedgerState) : Prop :=
  s.cash.total_value = signedTxnSum s.transactions

/-- Every successful ledger call preserves the conservation invariant. -/
theorem conservation_stepOp (s s2 : LedgerState) (op : LedgerOp)
    (hstep : stepOp s op = .ok s2) (h : CashConservation s) : CashConservation s2 := by
  unfold CashConservation at h
  cases op with
  | deposit a =>
    simp only [stepOp, deposit] at hstep
    split at hstep
    · cases hstep
    · injection hstep with h2
      subst h2
      unfold CashConservation
      simp [signedTxnSum_append, signedAmount]
      linarith
  | withdraw a =>
    simp only [stepOp, withdraw] at hstep
    split at hstep
    · cases hstep
    · split at hstep
      · cases hstep
      · injection hstep with h2
        subst h2
        unfold CashConservation
        simp [signedTxnSum_append, signedAmount]
        linarith
  | createBuyOrder sym p n f =>
    simp only [stepOp, create_buy_order] at hstep
    split at hstep
    · cases hstep
    · injection hstep with h2
      subst h2
      unfold CashConservation
      simpa using h
  | createSellOrder sym p n f =>
    simp only [stepOp, create_sell_order] at hstep
    split at hstep
    · cases hstep
    · split at hstep
      · cases hstep
      · injection hstep with h2
        subst h2
        unfold CashConservation
        simpa using h
  | executeOrder oid po fo =>
    simp only [stepOp, execute_order] at hstep
    split at hstep
    · cases hstep
    · split at hstep
      · cases hstep
      · split at hstep
        · rename_i heq
          simp only [execute_buy_part] at hstep
          split at hstep
          · cases hstep
          · injection hstep with h2
            subst h2
            unfold CashConservation
            simp [signedTxnSum_append, signedAmount]
            linarith
        · rename_i heq
          simp only [execute_sell_part] at hstep
          split at hstep
          · cases hstep
          · split at hstep
            · cases hstep
            · injection hstep with h2
              subst h2
              unfold CashConservation
              simp [signedTxnSum_append, signedAmount]
              linarith
  | cancelOrder oid =>
    simp only [stepOp, cancel_order] at hstep
    split at hstep
    · cases hstep
    · split at hstep
      · cases hstep
      · injection hstep with h2
        subst h2
        unfold CashConservation
        split <;> simpa using h
  | receiveDividend sym d =>
    simp only [stepOp, receive_dividend] at hstep
    split at hstep
    · cases hstep
    · split at hstep
      · cases hstep
      · split at hstep
        · cases hstep
        · injection hstep with h2
          subst h2
          unfold CashConservation
          simp [signedTxnSum_append, signedAmount]
          linarith

/-- A failed call leaves the invariant untouched, so every call preserves it. -/
theorem conservation_applyOp (s : LedgerState) (op : LedgerOp) (h : CashConservation s) :
    CashConservation (applyOp s op) := by
  unfold applyOp
  cases hstep : stepOp s op with
  | error e => simpa [Except.toOption] using h
  | ok s2 => simpa [Except.toOption] using conservation_stepOp s s2 op hstep h

/-- Claim C1: after every finite sequence of ledger operations (deposits,
withdrawals, order creations, executions, cancellations, dividends) starting
from the initial CASH row with total 0 and available 0, the CASH position's
total_value equals the sum of all recorded transaction amounts signed by
type (DEPOSIT, SELL, DIVIDEND positive; WITHDRAW, BUY negative). -/
theorem cash_conservation (ops : List LedgerOp) :
    (runOps initialState ops).cash.total_value =
      signedTxnSum (runOps initialState ops).transactions := by
  have hinit : CashConservation initialState := by
    simp [CashConservation, initialState, signedTxnSum]
  have hgen : ∀ (l : List LedgerOp) (s : LedgerState),
      CashConservation s → CashConservation (runOps s l) := by
    intro l
    induction l with
    | nil => intro s hs; exact hs
    | cons op rest ih =>
      intro s hs
      simp only [runOps, List.foldl] at ih ⊢
      exact ih _ (conservation_applyOp s op hs)
  exact hgen ops initialState hinit

/-- Claim C2 (evaluation at the failing input): deposit 1000000, create a BUY
order for 100 shares at 200 with fee 15 (reserving R = 20015 from available),
then execute it with the overridden open price 190 and recomputed fee 29
(executed amount A = 19029).  Cash total correctly ends A = 19029 lower, but
execute_order adds the recomputed amount A — not the reserved amount R — back
to available before deducting A, so available ends R = 20015 lower than
before the order, not A lower as the spec requires; available is left 986
below total although no order is pending. -/
theorem execute_buy_override_cash_drift :
    (runOps initialState
        [.deposit 1000000, .createBuyOrder "AAPL" 200 100 15,
         .executeOrder 1 (some 190) (some 29)]).cash.total_value = 1000000 - 19029 ∧
    (runOps initialState
        [.deposit 1000000, .createBuyOrder "AAPL" 200 100 15,
         .executeOrder 1 (some 190) (some 29)]).cash.available = 1000000 - 20015 ∧
    (runOps initialState
        [.deposit 1000000, .createBuyOrder "AAPL" 200 100 15,
         .executeOrder 1 (some 190) (some 29)]).cash.available ≠ 1000000 - 19029 := by
  norm_num [runOps, applyOp, stepOp, deposit, create_buy_order, execute_order,
    execute_buy_part, findOrder, findStock, upsertStock, updateOrder, initialState,
    Except.toOption, List.foldl, List.find?]

/-! ## Candidate selection (broker.py, populate_prediction_with_orders) -/

/-- StockPrediction (stock_prediction.py): a prediction possibly annotated
with an order proposal. -/
structure StockPrediction where
  ticker : String
  predicted_low : ℚ
  predicted_high : ℚ
  number_of_shares : Option ℤ := none
  buy_threshold : Option ℚ := none
  sell_threshold : Option ℚ := none
  profit : Option ℚ := none
deriving DecidableEq

/-- Modelled from the spec: SQLWrapper.get_stock_symbols_in_portfolio is
called by the Broker (broker.py line 147) but is not defined in the
sql_wrapper.py of the repository; per the spec's description of sell
candidates as "already-held tickers", it returns the stock symbols of the
portfolio's STOCK rows. -/
def get_stock_symbols_in_portfolio (s : LedgerState) : List String :=
  s.stocks.map (fun st => st.stock_symbol)

/-- What processing one prediction does: crash (a TypeError from computing a
fee on a None sell threshold for a held ticker), contribute a sell candidate,
contribute a buy candidate, or contribute nothing. -/
inductive PredOutcome
  | crash
  | sellCand (p : StockPrediction)
  | buyCand (p : StockPrediction)
  | skip
deriving DecidableEq

/-- The body of the per-prediction loop of populate_prediction_with_orders.
A held ticker is annotated as a sell candidate unconditionally (crashing when
the thresholds are None, since the code computes calculate_fee(None, n)); an
unheld ticker becomes a buy candidate when thresholds exist, the sizer yields
a positive share count, the fee-inclusive profit is positive and the buy
threshold is not well below the latest close (share_value models the
external price lookup). -/
def processPrediction (s : LedgerState) (share_value : String → ℚ)
    (p : StockPrediction) : PredOutcome :=
  if (get_stock_symbols_in_portfolio s).contains p.ticker then
    match calculate_thresholds p.predicted_low p.predicted_high with
    | none => .crash
    | some (_, st) =>
      .sellCand { p with
        number_of_shares :=
          some ((findStock s.stocks p.ticker).elim 0 (fun x => x.number_of_shares)),
        sell_threshold := some st }
  else
    match calculate_thresholds p.predicted_low p.predicted_high with
    | none => .skip
    | some (bt, st) =>
      let n := calculate_number_of_shares s.cash.available ((s.stocks.length : ℤ)) bt
      if n ≤ 0 then .skip
      else
        let buy_fee := calculate_fee bt n
        let sell_fee := calculate_fee st n
        let total_buy_cost := (n : ℚ) * bt + buy_fee
        let total_sell_value := (n : ℚ) * st - sell_fee
        let profit := total_sell_value - total_buy_cost
        if 0 < profit then
          if ¬ (bt * (103/100) < share_value p.ticker) then
            .buyCand { p with
              profit := some profit,
              number_of_shares := some n,
              buy_threshold := some bt,
              sell_threshold := some st }
          else .skip
        else .skip

/-- The loop of populate_prediction_with_orders, accumulating the sell and
buy candidate lists in order; none models the pass aborting with a TypeError. -/
def populateAux (s : LedgerState) (share_value : String → ℚ) :
    List StockPrediction → Option (List StockPrediction × List StockPrediction)
  | [] => some ([], [])
  | p :: rest =>
    match processPrediction s share_value p with
    | .crash => none
    | .sellCand q => (populateAux s share_value rest).map (fun r => (q :: r.1, r.2))
    | .buyCand q => (populateAux s share_value rest).map (fun r => (r.1, q :: r.2))
    | .skip => populateAux s share_value rest

/-- The sort key x.profit of the buy candidates (always set on a buy). -/
def profitKey (p : StockPrediction) : ℚ := p.profit.elim 0 id

/-- The descending-profit comparator of the stable sort (reverse=True). -/
def buyCompare (a b : StockPrediction) : Bool := decide (profitKey b ≤ profitKey a)

/-- Python list slicing l[:k] for a possibly negative k. -/
def pySlice {α : Type} (k : ℤ) (l : List α) : List α :=
  if 0 ≤ k then l.take k.toNat else l.take ((l.length : ℤ) + k).toNat

/-- Broker.populate_prediction_with_orders: sell candidates first, then the
buy candidates sorted by profit descending, sliced to
number_of_stocks_allowed - len(sell_predictions). -/
def populate_prediction_with_orders (s : LedgerState) (share_value : String → ℚ)
    (predictions : List StockPrediction) : Option (List StockPrediction) :=
  (populateAux s share_value predictions).map (fun r =>
    r.1 ++ pySlice (number_of_stocks_allowed - (r.1.length : ℤ)) (r.2.mergeSort buyCompare))

/-- A prediction for a held ticker either crashes the pass or yields a sell
candidate with the same ticker. -/
theorem processPrediction_held (s : LedgerState) (sv : String → ℚ) (p : StockPrediction)
    (hc : (get_stock_symbols_in_portfolio s).contains p.ticker = true) :
    processPrediction s sv p = .crash ∨
      ∃ q, processPrediction s sv p = .sellCand q ∧ q.ticker = p.ticker := by
  unfold processPrediction
  simp only [hc, if_true]
  rcases hth : calculate_thresholds p.predicted_low p.predicted_high with _ | ⟨bt, st⟩ <;>
    simp only [hth]
  · exact Or.inl trivial
  · exact Or.inr ⟨_, rfl, rfl⟩

/-- A prediction for an unheld ticker either contributes nothing or yields a
buy candidate with the same ticker. -/
theorem processPrediction_not_held (s : LedgerState) (sv : String → ℚ) (p : StockPrediction)
    (hc : (get_stock_symbols_in_portfolio s).contains p.ticker = false) :
    processPrediction s sv p = .skip ∨
      ∃ q, processPrediction s sv p = .buyCand q ∧ q.ticker = p.ticker := by
  unfold processPrediction
  simp only [hc, Bool.false_eq_true, if_false]
  rcases hth : calculate_thresholds p.predicted_low p.predicted_high with _ | ⟨bt, st⟩ <;>
    simp only [hth]
  · exact Or.inl trivial
  · split
    · exact Or.inl rfl
    · split
      · split
        · exact Or.inr ⟨_, rfl, rfl⟩
        · exact Or.inl rfl
      · exact Or.inl rfl

/-- The accumulator of the selection loop: the sell list carries exactly the
held-ticker predictions in order, and the buy list only unheld tickers. -/
theorem populateAux_spec (s : LedgerState) (sv : String → ℚ)
    (preds : List StockPrediction) :
    ∀ (sl bl : List StockPrediction),
      populateAux s sv preds = some (sl, bl) →
      (sl.map (fun q => q.ticker) =
        (preds.filter
          (fun p => (get_stock_symbols_in_portfolio s).contains p.ticker)).map
          (fun p => p.ticker)) ∧
      (∀ q ∈ sl, (get_stock_symbols_in_portfolio s).contains q.ticker = true) ∧
      (∀ q ∈ bl, (get_stock_symbols_in_portfolio s).contains q.ticker = false) := by
  induction preds with
  | nil =>
    intro sl bl h
    simp only [populateAux, Option.some.injEq, Prod.mk.injEq] at h
    obtain ⟨h1, h2⟩ := h
    subst h1
    subst h2
    exact ⟨by simp, by simp, by simp⟩
  | cons p rest ih =>
    intro sl bl h
    simp only [populateAux] at h
    by_cases hc : (get_stock_symbols_in_portfolio s).contains p.ticker = true
    · rcases processPrediction_held s sv p hc with hcr | ⟨q, hq, hqt⟩
      · simp only [hcr] at h
        exact Option.noConfusion h
      · simp only [hq] at h
        rcases hrest : populateAux s sv rest with _ | ⟨sl', bl'⟩
        · simp only [hrest, Option.map_none'] at h
          exact Option.noConfusion h
        · simp only [hrest, Option.map_some', Option.some.injEq, Prod.mk.injEq] at h
          obtain ⟨h1, h2⟩ := h
          subst h1
          subst h2
          obtain ⟨ihm, ihs, ihb⟩ := ih sl' bl' hrest
          refine ⟨?_, ?_, ihb⟩
          · have hmem : p.ticker ∈ get_stock_symbols_in_portfolio s := by simpa using hc
            simp [List.filter_cons, hmem, hqt, ihm]
          · intro x hx
            rcases List.mem_cons.mp hx with rfl | hx2
            · rw [hqt]
              exact hc
            · exact ihs x hx2
    · have hcf : (get_stock_symbols_in_portfolio s).contains p.ticker = false := by
        simpa using hc
      rcases processPrediction_not_held s sv p hcf with hsk | ⟨q, hq, hqt⟩
      · simp only [hsk] at h
        obtain ⟨ihm, ihs, ihb⟩ := ih sl bl h
        refine ⟨?_, ihs, ihb⟩
        have hnmem : p.ticker ∉ get_stock_symbols_in_portfolio s := by simpa using hcf
        simp [List.filter_cons, hnmem, ihm]
      · simp only [hq] at h
        rcases hrest : populateAux s sv rest with _ | ⟨sl', bl'⟩
        · simp only [hrest, Option.map_none'] at h
          exact Option.noConfusion h
        · simp only [hrest, Option.map_some', Option.some.injEq, Prod.mk.injEq] at h
          obtain ⟨h1, h2⟩ := h
          subst h1
          subst h2
          obtain ⟨ihm, ihs, ihb⟩ := ih sl' bl' hrest
          refine ⟨?_, ihs, ?_⟩
          · have hnmem : p.ticker ∉ get_stock_symbols_in_portfolio s := by simpa using hcf
            simp [List.filter_cons, hnmem, ihm]
          · intro x hx
            rcases List.mem_cons.mp hx with rfl | hx2
            · rw [hqt]
              exact hcf
            · exact ihb x hx2

/-- The descending-profit comparator is transitive. -/
theorem buyCompare_trans (a b c : StockPrediction) :
    buyCompare a b → buyCompare b c → buyCompare a c := by
  simp only [buyCompare, decide_eq_true_eq]
  intro hab hbc
  exact le_trans hbc hab

/-- The descending-profit comparator is total. -/
theorem buyCompare_total (a b : StockPrediction) :
    buyCompare a b || buyCompare b a := by
  simp only [buyCompare, Bool.or_eq_true, decide_eq_true_eq]
  exact le_total (profitKey b) (profitKey a)

/-- Claim C9 (amended): whenever populate_prediction_with_orders returns a
list, that list is the sell candidates — exactly the held-ticker predictions,
in order, kept unconditionally — followed by buy candidates (unheld tickers)
sorted by fee-inclusive estimated profit descending; and the number of
returned sell candidates plus buy candidates is capped by
number_of_stocks_allowed whenever the sell candidates alone do not exceed
the cap.  (The cap counts sell candidates, i.e. held tickers that appear in
the prediction list — not all existing holdings, see the counterexample.) -/
theorem populate_orders_amended (s : LedgerState) (sv : String → ℚ)
    (predictions res : List StockPrediction)
    (h : populate_prediction_with_orders s sv predictions = some res) :
    ∃ sells buys,
      res = sells ++ buys ∧
      sells.map (fun q => q.ticker) =
        ((predictions.filter
          (fun p => (get_stock_symbols_in_portfolio s).contains p.ticker)).map
          (fun p => p.ticker)) ∧
      (∀ q ∈ sells, (get_stock_symbols_in_portfolio s).contains q.ticker = true) ∧
      (∀ q ∈ buys, (get_stock_symbols_in_portfolio s).contains q.ticker = false) ∧
      buys.Pairwise (fun a b => profitKey b ≤ profitKey a) ∧
      ((sells.length : ℤ) ≤ number_of_stocks_allowed →
        (sells.length : ℤ) + (buys.length : ℤ) ≤ number_of_stocks_allowed) := by
  unfold populate_prediction_with_orders at h
  rcases haux : populateAux s sv predictions with _ | ⟨sl, bl⟩
  · rw [haux] at h
    exact Option.noConfusion h
  · rw [haux] at h
    simp only [Option.map_some', Option.some.injEq] at h
    subst h
    obtain ⟨hm, hs, hb⟩ := populateAux_spec s sv predictions sl bl haux
    have hsub : List.Sublist
        (pySlice (number_of_stocks_allowed - (sl.length : ℤ)) (bl.mergeSort buyCompare))
        (bl.mergeSort buyCompare) := by
      unfold pySlice
      split <;> exact List.take_sublist _ _
    refine ⟨sl, pySlice (number_of_stocks_allowed - (sl.length : ℤ)) (bl.mergeSort buyCompare),
      rfl, hm, hs, ?_, ?_, ?_⟩
    · intro q hq
      have hq2 : q ∈ bl.mergeSort buyCompare := hsub.subset hq
      have hq3 : q ∈ bl := (List.mergeSort_perm bl buyCompare).mem_iff.mp hq2
      exact hb q hq3
    · have hsorted :=
        @List.sorted_mergeSort StockPrediction buyCompare buyCompare_trans buyCompare_total bl
      have hsorted2 : (bl.mergeSort buyCompare).Pairwise
          (fun a b => profitKey b ≤ profitKey a) := by
        refine hsorted.imp ?_
        intro a b hab
        simpa [buyCompare] using hab
      exact hsorted2.sublist hsub
    · intro hlen
      have hk : (0 : ℤ) ≤ number_of_stocks_allowed - (sl.length : ℤ) := by omega
      have hslice : pySlice (number_of_stocks_allowed - (sl.length : ℤ))
          (bl.mergeSort buyCompare) =
          (bl.mergeSort buyCompare).take (number_of_stocks_allowed - (sl.length : ℤ)).toNat := by
        unfold pySlice
        rw [if_pos hk]
      rw [hslice]
      have htake := List.length_take_le
        (number_of_stocks_allowed - (sl.length : ℤ)).toNat (bl.mergeSort buyCompare)
      omega

/-- Witness for the amended claim C9 at the empty prediction list over the
initial (empty) portfolio. -/
theorem populate_orders_amended_witness :
    ∃ sells buys,
      ([] : List StockPrediction) = sells ++ buys ∧
      sells.map (fun q => q.ticker) =
        ((([] : List StockPrediction).filter
          (fun p => (get_stock_symbols_in_portfolio initialState).contains p.ticker)).map
          (fun p => p.ticker)) ∧
      (∀ q ∈ sells, (get_stock_symbols_in_portfolio initialState).contains q.ticker = true) ∧
      (∀ q ∈ buys, (get_stock_symbols_in_portfolio initialState).contains q.ticker = false) ∧
      buys.Pairwise (fun a b => profitKey b ≤ profitKey a) ∧
      ((sells.length : ℤ) ≤ number_of_stocks_allowed →
        (sells.length : ℤ) + (buys.length : ℤ) ≤ number_of_stocks_allowed) :=
  populate_orders_amended initialState (fun _ => 0) [] []
    (by norm_num [populate_prediction_with_orders, populateAux, pySlice,
      number_of_stocks_allowed])

/-- The portfolio of the claim C9 counterexample: nine holdings, none of
which appears in the day's prediction list. -/
def c9State : LedgerState :=
  { cash := { total_value := 10000, available := 10000 },
    stocks := [⟨"H1", 1, 1, 1⟩, ⟨"H2", 1, 1, 1⟩, ⟨"H3", 1, 1, 1⟩, ⟨"H4", 1, 1, 1⟩,
               ⟨"H5", 1, 1, 1⟩, ⟨"H6", 1, 1, 1⟩, ⟨"H7", 1, 1, 1⟩, ⟨"H8", 1, 1, 1⟩,
               ⟨"H9", 1, 1, 1⟩],
    orders := [], nextOrderId := 1, transactions := [] }

/-- The external price lookup of the counterexample: every close is 100. -/
def c9Share : String → ℚ := fun _ => 100

/-- Two predictions for new tickers, both passing every buy filter. -/
def c9Preds : List StockPrediction :=
  [{ ticker := "T1", predicted_low := 100, predicted_high := 120 },
   { ticker := "T2", predicted_low := 100, predicted_high := 120 }]

/-- The annotated buy candidate produced for T1. -/
def c9B1 : StockPrediction :=
  { ticker := "T1", predicted_low := 100, predicted_high := 120, number_of_shares := some 97,
    buy_threshold := some 102, sell_threshold := some (588/5), profit := some (7276/5) }

/-- The annotated buy candidate produced for T2. -/
def c9B2 : StockPrediction :=
  { ticker := "T2", predicted_low := 100, predicted_high := 120, number_of_shares := some 97,
    buy_threshold := some 102, sell_threshold := some (588/5), profit := some (7276/5) }

/-- Claim C9 (counterexample): with nine existing holdings and two buy
candidates for new tickers, the selection returns both buy candidates — the
slice bound is number_of_stocks_allowed minus the number of sell candidates
(zero here, since no held ticker is in the prediction list), not minus the
number of holdings — so existing holdings plus returned new BUY candidates
is 11, exceeding N = 10. -/
theorem populate_cap_counterexample :
    ((c9State.stocks.length : ℤ) = 9) ∧
    ∃ res, populate_prediction_with_orders c9State c9Share c9Preds = some res ∧
      (∀ q ∈ res, (get_stock_symbols_in_portfolio c9State).contains q.ticker = false) ∧
      (res.length : ℤ) = 2 ∧
      number_of_stocks_allowed < (c9State.stocks.length : ℤ) + (res.length : ℤ) := by
  have hp1 : processPrediction c9State c9Share
      { ticker := "T1", predicted_low := 100, predicted_high := 120 } = .buyCand c9B1 := by
    norm_num [processPrediction, c9State, c9Share, c9B1, get_stock_symbols_in_portfolio,
      calculate_thresholds, round_to_tick_size, pyRound, tick_size,
      min_prediction_difference, buy_threshold_increase, sell_threshold_decrease,
      calculate_number_of_shares, allowed_value_per_stock, number_of_stocks_allowed,
      sizerLoop, calculate_fee, max_def, findStock]
    intro hmem
    exact absurd hmem (by decide)
  have hp2 : processPrediction c9State c9Share
      { ticker := "T2", predicted_low := 100, predicted_high := 120 } = .buyCand c9B2 := by
    norm_num [processPrediction, c9State, c9Share, c9B2, get_stock_symbols_in_portfolio,
      calculate_thresholds, round_to_tick_size, pyRound, tick_size,
      min_prediction_difference, buy_threshold_increase, sell_threshold_decrease,
      calculate_number_of_shares, allowed_value_per_stock, number_of_stocks_allowed,
      sizerLoop, calculate_fee, max_def, findStock]
    intro hmem
    exact absurd hmem (by decide)
  have haux : populateAux c9State c9Share c9Preds = some ([], [c9B1, c9B2]) := by
    simp only [c9Preds, populateAux, hp1, hp2, Option.map_some']
  have hres : populate_prediction_with_orders c9State c9Share c9Preds =
      some (([c9B1, c9B2].mergeSort buyCompare).take 10) := by
    rw [populate_prediction_with_orders, haux]
    norm_num [pySlice, number_of_stocks_allowed]
  have hlen : ([c9B1, c9B2].mergeSort buyCompare).length = 2 :=
    (List.mergeSort_perm [c9B1, c9B2] buyCompare).length_eq
  refine ⟨by decide, ([c9B1, c9B2].mergeSort buyCompare).take 10, hres, ?_, ?_, ?_⟩
  · intro q hq
    have hq2 : q ∈ [c9B1, c9B2].mergeSort buyCompare := List.take_subset _ _ hq
    have hq3 : q ∈ [c9B1, c9B2] := by
      simpa using hq2
    rcases List.mem_cons.mp hq3 with rfl | hq4
    · decide
    · rcases List.mem_cons.mp hq4 with rfl | hq5
      · decide
      · exact absurd hq5 (by simp)
  · rw [List.length_take, hlen]
    decide
  · rw [List.length_take, hlen]
    decide
